import Mathlib

/-!
Shallow embedding of the grant/exchange core of the `authorization-server`
repository (oauth2.controller). The Mongo-backed credential store is modelled
as explicit lists of documents inside a `Store` record; every handler becomes a
pure function from the store (plus the request data and the freshly generated
random values) to an outcome together with the updated store. `mongoId` fields
stand for Mongo `_id` object ids; `populate` becomes a lookup of the referenced
document in the store.
-/

set_option linter.unusedVariables false

namespace AuthServer

/-- A registered OAuth2 client (client model: `id`, `secret`, `redirectUris`,
`scopes`; `mongoId` stands for the document's Mongo `_id`). -/
structure Client where
  mongoId : Nat
  id : String
  secret : String
  redirectUris : List String
  scopes : List String
deriving Repr, DecidableEq

/-- A registered end user (user model: authentication is by `email` and
`password` hash; `name` is reported by introspection). -/
structure User where
  mongoId : Nat
  name : String
  email : String
  password : String
deriving Repr, DecidableEq

/-- An authorization code document (authCode model): `clientId` and `userId`
are references (Mongo `_id`s) to the client and user documents. -/
structure AuthCode where
  value : String
  clientId : Nat
  userId : Nat
  redirectUri : String
  scopes : List String
deriving Repr, DecidableEq

/-- An access token document (accessToken model). `userId` is absent for the
client-credentials grant. `expireAt` is the TTL expiry instant. -/
structure AccessToken where
  mongoId : Nat
  value : String
  clientId : Nat
  userId : Option Nat
  scopes : List String
  grantType : String
  expireAt : Nat
deriving Repr, DecidableEq

/-- A refresh token document (refreshToken model): `accessTokenId` references
the paired access token's `_id`. -/
structure RefreshToken where
  value : String
  accessTokenId : Nat
deriving Repr, DecidableEq

/-- The credential store: one list of documents per Mongo collection. -/
structure Store where
  clients : List Client
  users : List User
  authCodes : List AuthCode
  accessTokens : List AccessToken
  refreshTokens : List RefreshToken
deriving Repr, DecidableEq

/-- `populate` of a client reference: find the client document whose `_id`
matches the stored reference. -/
def findClientByMongoId (s : Store) (ref : Nat) : Option Client :=
  s.clients.find? (fun c => c.mongoId == ref)

/-- The values produced by the value generators (and the store) during one
handler run: a fresh access-token value, its fresh `_id`, its TTL expiry
instant, and a fresh refresh-token value. -/
structure FreshTokens where
  atValue : String
  atMongoId : Nat
  atExpireAt : Nat
  rtValue : String
deriving Repr, DecidableEq

/-- Outcome of an oauth2orize exchange callback. `done(null, token, refresh?,
params)` is `success`; `done(null, false)` is `invalidGrant` (the uniform
invalid-grant rejection); `done(err)` and a TypeError thrown on a dangling
populated reference are both `serverError`. -/
inductive ExchangeOutcome where
  | success (accessToken : String) (refreshToken : Option String) (expiresIn : Nat)
  | invalidGrant
  | serverError (msg : String)
deriving Repr, DecidableEq

/-- Whether an exchange outcome is the success case. -/
def isSuccess : ExchangeOutcome → Bool
  | .success _ _ _ => true
  | _ => false

/-- The authorization-code exchange handler (`oauth2orize.exchange.code`):
find the code by value with its client populated; require the requesting
client's `id` to equal the populated client's `id` and the supplied
`redirectUri` to equal the stored one; on match remove the code, save a fresh
access token (grantType `code`) carrying the code's client/user/scopes, and
save a refresh token paired to it; otherwise `done(null, false)`. -/
def exchangeCode (s : Store) (client : Client) (code : String)
    (redirectUri : String) (fresh : FreshTokens) : ExchangeOutcome × Store :=
  match s.authCodes.find? (fun ac => ac.value == code) with
  | none => (.invalidGrant, s)
  | some authCode =>
    match findClientByMongoId s authCode.clientId with
    | none => (.serverError "TypeError: cannot read property id of null", s)
    | some populatedClient =>
      if client.id == populatedClient.id && redirectUri == authCode.redirectUri then
        let accessToken : AccessToken :=
          { mongoId := fresh.atMongoId, value := fresh.atValue,
            clientId := authCode.clientId, userId := some authCode.userId,
            scopes := authCode.scopes, grantType := "code",
            expireAt := fresh.atExpireAt }
        let refreshToken : RefreshToken :=
          { value := fresh.rtValue, accessTokenId := fresh.atMongoId }
        (.success fresh.atValue (some fresh.rtValue) fresh.atExpireAt,
          { s with
            authCodes := s.authCodes.eraseP (fun ac => ac.value == code),
            accessTokens := accessToken :: s.accessTokens,
            refreshTokens := refreshToken :: s.refreshTokens })
      else (.invalidGrant, s)

/-- Modelled from the spec: `validatePasswordHash` lives in utils/hashUtils,
which is not under src/; the spec only requires `verifyPassword(plain, hash)
-> bool`, so the hash comparison is abstracted as string equality. -/
def validatePasswordHash (password : String) (hash : String) : Bool :=
  password == hash

/-- The resource-owner password exchange handler
(`oauth2orize.exchange.password`): find the client document by the requesting
client's `id` and require its stored secret to equal the presented secret;
find the user by email (`username` is the email) and validate the password
hash; on success save a fresh access token (grantType `password`) for the
requested scope plus a paired refresh token; on any failed check
`done(null, false)`. -/
def exchangePassword (s : Store) (client : Client) (username : String)
    (password : String) (scope : List String) (fresh : FreshTokens) :
    ExchangeOutcome × Store :=
  match s.clients.find? (fun c => c.id == client.id) with
  | some clientDoc =>
    if clientDoc.secret == client.secret then
      match s.users.find? (fun u => u.email == username) with
      | some user =>
        if validatePasswordHash password user.password then
          let accessToken : AccessToken :=
            { mongoId := fresh.atMongoId, value := fresh.atValue,
              clientId := client.mongoId, userId := some user.mongoId,
              scopes := scope, grantType := "password",
              expireAt := fresh.atExpireAt }
          let refreshToken : RefreshToken :=
            { value := fresh.rtValue, accessTokenId := fresh.atMongoId }
          (.success fresh.atValue (some fresh.rtValue) fresh.atExpireAt,
            { s with
              accessTokens := accessToken :: s.accessTokens,
              refreshTokens := refreshToken :: s.refreshTokens })
        else (.invalidGrant, s)
      | none => (.invalidGrant, s)
    else (.invalidGrant, s)
  | none => (.invalidGrant, s)

/-- The client-credentials exchange handler
(`oauth2orize.exchange.clientCredentials`): find the client document by `id`;
if it has a non-empty scope list and its secret matches, save a fresh access
token (grantType `client_credentials`) with the client's full scope list and
no user, and return it with no refresh token (`done(null, value, undefined,
params)`); if the client document exists with an empty scope list,
`done(new Error(...))`; otherwise `done(null, false)`. -/
def exchangeClientCredentials (s : Store) (client : Client)
    (scope : List String) (fresh : FreshTokens) : ExchangeOutcome × Store :=
  match s.clients.find? (fun c => c.id == client.id) with
  | some clientDoc =>
    if clientDoc.scopes.length > 0 && clientDoc.secret == client.secret then
      let accessToken : AccessToken :=
        { mongoId := fresh.atMongoId, value := fresh.atValue,
          clientId := client.mongoId, userId := none,
          scopes := clientDoc.scopes, grantType := "client_credentials",
          expireAt := fresh.atExpireAt }
      (.success fresh.atValue none fresh.atExpireAt,
        { s with accessTokens := accessToken :: s.accessTokens })
    else if clientDoc.scopes.length == 0 then
      (.serverError "Client does not support client_credentials due incomplete scopes value", s)
    else (.invalidGrant, s)
  | none => (.invalidGrant, s)

/-- The refresh-token exchange handler (`oauth2orize.exchange.refreshToken`):
find the refresh token by value, populate its access token and that token's
client; require the populated client's `id` to equal the requesting client's
`id`; on match save a fresh access token carrying forward the old token's
client/user/scopes/grantType, remove the old access token and the old refresh
token, and save a fresh refresh token paired to the new access token;
otherwise `done(null, false)`. A dangling populated reference raises a
TypeError (`serverError`). -/
def exchangeRefreshToken (s : Store) (client : Client)
    (refreshTokenValue : String) (scope : List String) (fresh : FreshTokens) :
    ExchangeOutcome × Store :=
  match s.refreshTokens.find? (fun rt => rt.value == refreshTokenValue) with
  | none => (.invalidGrant, s)
  | some refreshTokenDoc =>
    match s.accessTokens.find? (fun tok => tok.mongoId == refreshTokenDoc.accessTokenId) with
    | none => (.serverError "TypeError: cannot read property clientId of null", s)
    | some oldAccessToken =>
      match findClientByMongoId s oldAccessToken.clientId with
      | none => (.serverError "TypeError: cannot read property id of null", s)
      | some tokenClient =>
        if tokenClient.id == client.id then
          let accessToken : AccessToken :=
            { mongoId := fresh.atMongoId, value := fresh.atValue,
              clientId := oldAccessToken.clientId, userId := oldAccessToken.userId,
              scopes := oldAccessToken.scopes, grantType := oldAccessToken.grantType,
              expireAt := fresh.atExpireAt }
          let newRefreshToken : RefreshToken :=
            { value := fresh.rtValue, accessTokenId := fresh.atMongoId }
          (.success fresh.atValue (some fresh.rtValue) fresh.atExpireAt,
            { s with
              accessTokens := accessToken ::
                s.accessTokens.eraseP (fun tok => tok.mongoId == refreshTokenDoc.accessTokenId),
              refreshTokens := newRefreshToken ::
                s.refreshTokens.eraseP (fun rt => rt.value == refreshTokenValue) })
        else (.invalidGrant, s)

/-- Response of the token-introspection endpoint: `active` is the
`{active: true, clientId, scope, exp, username?}` body, `inactive` is exactly
`{active: false}` with no other fields, and `error` is the TypeError raised on
a dangling populated client reference. -/
inductive IntrospectionResponse where
  | active (clientId : String) (scope : String) (exp : Nat) (username : Option String)
  | inactive
  | error (msg : String)
deriving Repr, DecidableEq

/-- Join a scope list with single spaces (`accessToken.scopes.join(' ')`). -/
def joinScopes : List String → String
  | [] => ""
  | [x] => x
  | x :: xs => x ++ " " ++ joinScopes xs

/-- The token-introspection endpoint handler: if a (truthy) token value was
supplied, find the access token by value with `userId clientId` populated; if
found and the populated client's `id` equals the authenticated requester's
`id`, answer active with the token's details (the username only when a user is
populated); in every other case answer `{active: false}`. -/
def tokenIntrospection (s : Store) (requester : Client) (token : Option String) :
    IntrospectionResponse :=
  match token with
  | none => .inactive
  | some t =>
    if t == "" then .inactive
    else
      match s.accessTokens.find? (fun tok => tok.value == t) with
      | none => .inactive
      | some accessToken =>
        match findClientByMongoId s accessToken.clientId with
        | none => .error "TypeError: cannot read property id of null"
        | some tokenClient =>
          if tokenClient.id == requester.id then
            .active tokenClient.id (joinScopes accessToken.scopes)
              accessToken.expireAt
              (match accessToken.userId with
               | some uid =>
                 match s.users.find? (fun u => u.mongoId == uid) with
                 | some user => some user.name
                 | none => none
               | none => none)
          else .inactive

/-- Modelled from the spec: `isScopeEquals` lives in utils/isEqual, which is
not under src/; the spec says the fast path compares the scope lists for
exact equality *as sets*. -/
def isScopeEquals (a : List String) (b : List String) : Bool :=
  a.all (fun x => b.contains x) && b.all (fun x => a.contains x)

/-- The immediate-approval callback of `server.authorization`: find one access
token for the (client, user) pair; auto-approve (`done(null, true, ...)`)
exactly when one was found and its scopes equal the requested scope as sets;
otherwise fall through to interactive consent (`done(null, false, ...)`). -/
def immediateApproval (s : Store) (client : Client) (user : User)
    (scope : List String) : Bool :=
  match s.accessTokens.find?
      (fun tok => tok.clientId == client.mongoId && tok.userId == some user.mongoId) with
  | some accessToken => isScopeEquals accessToken.scopes scope
  | none => false

/-- `server.serializeClient`: the session stores only the client's `id`. -/
def serializeClient (client : Client) : String :=
  client.id

/-- `server.deserializeClient`: look the client up by `id`; a missing client
yields `none` (the handler calls `callback(null, null)`). -/
def deserializeClient (s : Store) (id : String) : Option Client :=
  s.clients.find? (fun c => c.id == id)

/-- Result of resuming an in-flight authorization transaction from the
session. -/
inductive TransactionLoad where
  | loaded (client : Client)
  | hardError
deriving Repr, DecidableEq

/-- Modelled from the spec: the oauth2orize transaction loader (a dependency,
not under src/) receives the deserialized client and, per the spec, treats a
missing client as a hard error for the transaction rather than proceeding
with an absent client. -/
def resumeTransaction (s : Store) (sessionClientId : String) : TransactionLoad :=
  match deserializeClient s sessionClientId with
  | some client => .loaded client
  | none => .hardError

/-!
Fine-grained model of the authorization-code exchange for the concurrency
claim. The handler body awaits four store operations in order — `findOne`,
`remove`, access-token `save`, refresh-token `save` — and the Node.js event
loop may interleave the steps of concurrent requests at exactly these await
points. Each pending request is a phase; a schedule picks which request steps
next. The `remove` is `authCode.remove()`, an unconditional delete of the
found document, not a compare-and-delete.
-/

/-- One in-flight authorization-code exchange request. -/
structure CodeExchangeRequest where
  client : Client
  code : String
  redirectUri : String
  fresh : FreshTokens
deriving Repr, DecidableEq

/-- Phase of an in-flight code exchange: which awaited store operation runs
next. The found code is kept in the request's local variable between steps. -/
inductive CodePhase where
  | start
  | toRemove (authCode : AuthCode)
  | toSaveAccessToken (authCode : AuthCode)
  | toSaveRefreshToken (authCode : AuthCode)
  | finished (outcome : ExchangeOutcome)
deriving Repr, DecidableEq

/-- One atomic step of a pending code exchange against the shared store:
`start` performs the `findOne` + populate + checks; `toRemove` deletes the
found document (unconditionally — deleting an already-deleted document is a
no-op that still succeeds); the two save phases persist the fresh tokens. -/
def codeExchangeStep (s : Store) (r : CodeExchangeRequest) (ph : CodePhase) :
    Store × CodePhase :=
  match ph with
  | .start =>
    match s.authCodes.find? (fun ac => ac.value == r.code) with
    | none => (s, .finished .invalidGrant)
    | some authCode =>
      match findClientByMongoId s authCode.clientId with
      | none => (s, .finished (.serverError "TypeError: cannot read property id of null"))
      | some populatedClient =>
        if r.client.id == populatedClient.id && r.redirectUri == authCode.redirectUri then
          (s, .toRemove authCode)
        else (s, .finished .invalidGrant)
  | .toRemove authCode =>
    ({ s with authCodes := s.authCodes.eraseP (fun ac => ac.value == authCode.value) },
     .toSaveAccessToken authCode)
  | .toSaveAccessToken authCode =>
    let accessToken : AccessToken :=
      { mongoId := r.fresh.atMongoId, value := r.fresh.atValue,
        clientId := authCode.clientId, userId := some authCode.userId,
        scopes := authCode.scopes, grantType := "code",
        expireAt := r.fresh.atExpireAt }
    ({ s with accessTokens := accessToken :: s.accessTokens },
     .toSaveRefreshToken authCode)
  | .toSaveRefreshToken authCode =>
    let refreshToken : RefreshToken :=
      { value := r.fresh.rtValue, accessTokenId := r.fresh.atMongoId }
    ({ s with refreshTokens := refreshToken :: s.refreshTokens },
     .finished (.success r.fresh.atValue (some r.fresh.rtValue) r.fresh.atExpireAt))
  | .finished outcome => (s, .finished outcome)

/-- Step request number `i` of the pending pool once (a no-op for an index out
of range; a finished request stays finished). -/
def stepPool (s : Store) (pool : List (CodeExchangeRequest × CodePhase)) (i : Nat) :
    Store × List (CodeExchangeRequest × CodePhase) :=
  match pool.get? i with
  | none => (s, pool)
  | some (r, ph) =>
    match ph with
    | .finished _ => (s, pool)
    | _ =>
      let (s2, ph2) := codeExchangeStep s r ph
      (s2, pool.set i (r, ph2))

/-- Run a schedule: at each entry, the named pending request takes its next
atomic step against the shared store. -/
def runSchedule (s : Store) (pool : List (CodeExchangeRequest × CodePhase)) :
    List Nat → Store × List (CodeExchangeRequest × CodePhase)
  | [] => (s, pool)
  | i :: rest =>
    let (s2, pool2) := stepPool s pool i
    runSchedule s2 pool2 rest

/-- The outcomes of the finished requests of a pool. -/
def poolOutcomes (pool : List (CodeExchangeRequest × CodePhase)) : List ExchangeOutcome :=
  pool.filterMap (fun rp =>
    match rp.2 with
    | .finished outcome => some outcome
    | _ => none)

/-! Concrete sample documents used by the witness theorems. -/

/-- Sample registered client. -/
def clientA : Client :=
  { mongoId := 1, id := "client-a", secret := "secret-a",
    redirectUris := ["https://a.example/cb"], scopes := ["read"] }

/-- Sample registered client with an empty configured scope list. -/
def clientB : Client :=
  { mongoId := 2, id := "client-b", secret := "secret-b",
    redirectUris := ["https://b.example/cb"], scopes := [] }

/-- Sample registered user. -/
def userU : User :=
  { mongoId := 10, name := "Alice", email := "alice@example.com",
    password := "pw-hash" }

/-- Sample authorization code issued to `clientA` for `userU`. -/
def codeAC : AuthCode :=
  { value := "code-1", clientId := 1, userId := 10,
    redirectUri := "https://a.example/cb", scopes := ["read"] }

/-- Sample access token of `clientA` for `userU`. -/
def tokenAT : AccessToken :=
  { mongoId := 100, value := "at-1", clientId := 1, userId := some 10,
    scopes := ["read"], grantType := "code", expireAt := 180 }

/-- Sample refresh token paired to `tokenAT`. -/
def tokenRT : RefreshToken :=
  { value := "rt-1", accessTokenId := 100 }

/-- Sample store holding the documents above. -/
def sampleStore : Store :=
  { clients := [clientA, clientB], users := [userU], authCodes := [codeAC],
    accessTokens := [tokenAT], refreshTokens := [tokenRT] }

/-- Fresh generated values for a first handler run. -/
def fresh1 : FreshTokens :=
  { atValue := "at-new-1", atMongoId := 101, atExpireAt := 360,
    rtValue := "rt-new-1" }

/-- Fresh generated values for a second handler run. -/
def fresh2 : FreshTokens :=
  { atValue := "at-new-2", atMongoId := 102, atExpireAt := 360,
    rtValue := "rt-new-2" }

/-- A second sample access token of `clientA` for `userU`, with different
scopes than `tokenAT`. -/
def tokenAT2 : AccessToken :=
  { mongoId := 103, value := "at-2", clientId := 1, userId := some 10,
    scopes := ["write"], grantType := "code", expireAt := 180 }

/-- Sample store in which `userU` holds two access tokens for `clientA`:
`tokenAT` (scopes `["read"]`) first, `tokenAT2` (scopes `["write"]`) second. -/
def storeTwoTokens : Store :=
  { sampleStore with accessTokens := [tokenAT, tokenAT2] }

/-- First concurrent exchange request for the sample code value. -/
def raceRequestA : CodeExchangeRequest :=
  { client := clientA, code := "code-1", redirectUri := "https://a.example/cb",
    fresh := fresh1 }

/-- Second concurrent exchange request for the same code value. -/
def raceRequestB : CodeExchangeRequest :=
  { client := clientA, code := "code-1", redirectUri := "https://a.example/cb",
    fresh := fresh2 }

/-! ### Helper lemmas -/

theorem exchangeCode_shape (s : Store) (client : Client) (code redirectUri : String)
    (fresh : FreshTokens) :
    isSuccess (exchangeCode s client code redirectUri fresh).1 = true ∨
    (exchangeCode s client code redirectUri fresh).2 = s := by
  unfold exchangeCode
  split
  · right; rfl
  · split
    · right; rfl
    · split
      · left; rfl
      · right; rfl

theorem exchangePassword_shape (s : Store) (client : Client)
    (username password : String) (scope : List String) (fresh : FreshTokens) :
    isSuccess (exchangePassword s client username password scope fresh).1 = true ∨
    ((exchangePassword s client username password scope fresh).1 = .invalidGrant ∧
      (exchangePassword s client username password scope fresh).2 = s) := by
  unfold exchangePassword
  split
  · split
    · split
      · split
        · left; rfl
        · right; exact ⟨rfl, rfl⟩
      · right; exact ⟨rfl, rfl⟩
    · right; exact ⟨rfl, rfl⟩
  · right; exact ⟨rfl, rfl⟩

theorem exchangeClientCredentials_shape (s : Store) (client : Client)
    (scope : List String) (fresh : FreshTokens) :
    isSuccess (exchangeClientCredentials s client scope fresh).1 = true ∨
    (exchangeClientCredentials s client scope fresh).2 = s := by
  unfold exchangeClientCredentials
  split
  · split
    · left; rfl
    · split
      · right; rfl
      · right; rfl
  · right; rfl

theorem exchangeRefreshToken_shape (s : Store) (client : Client)
    (refreshTokenValue : String) (scope : List String) (fresh : FreshTokens) :
    isSuccess (exchangeRefreshToken s client refreshTokenValue scope fresh).1 = true ∨
    (exchangeRefreshToken s client refreshTokenValue scope fresh).2 = s := by
  unfold exchangeRefreshToken
  split
  · right; rfl
  · split
    · right; rfl
    · split
      · right; rfl
      · split
        · left; rfl
        · right; rfl

/-! ### Claims -/

/-- C10: Session deserialization of an in-flight authorization transaction,
given a client id for which no client exists, produces a hard error for that
transaction (not a silent success with an absent client); conversely the
transaction loads whenever a client with that id exists. -/
theorem deserialize_unknown_client_hard_error (s : Store) (id : String) :
    resumeTransaction s id = .hardError ↔ ∀ c ∈ s.clients, c.id ≠ id := by
  unfold resumeTransaction deserializeClient
  rcases h : s.clients.find? (fun c => c.id == id) with _ | c
  · rw [h]
    rw [List.find?_eq_none] at h
    constructor
    · intro _ c hc
      simpa using h c hc
    · intro _
      rfl
  · have hmem := List.mem_of_find?_eq_some h
    have hid : c.id = id := by simpa using List.find?_some h
    rw [h]
    constructor
    · intro hcontra
      cases hcontra
    · intro hall
      exact absurd hid (hall c hmem)

/-- C5: a registered client whose configured scope list is empty gets the
distinguishable configuration error from the client-credentials exchange, not
the generic invalid-grant rejection. -/
theorem cc_empty_scopes_config_error (s : Store) (client : Client)
    (scope : List String) (fresh : FreshTokens) (clientDoc : Client)
    (hfind : s.clients.find? (fun c => c.id == client.id) = some clientDoc)
    (hscopes : clientDoc.scopes = []) :
    (exchangeClientCredentials s client scope fresh).1 =
      .serverError "Client does not support client_credentials due incomplete scopes value" ∧
    (exchangeClientCredentials s client scope fresh).1 ≠ .invalidGrant := by
  unfold exchangeClientCredentials
  rw [hfind]
  simp [hscopes]

/-- Witness for C5: `clientB` is registered with zero scopes in `sampleStore`
and its client-credentials exchange yields the configuration error. -/
theorem cc_empty_scopes_config_error_witness :
    (sampleStore.clients.find? (fun c => c.id == clientB.id) = some clientB) ∧
    clientB.scopes = [] ∧
    ((exchangeClientCredentials sampleStore clientB [] fresh1).1 =
        .serverError "Client does not support client_credentials due incomplete scopes value" ∧
      (exchangeClientCredentials sampleStore clientB [] fresh1).1 ≠ .invalidGrant) :=
  ⟨by decide, by decide,
    cc_empty_scopes_config_error sampleStore clientB [] fresh1 clientB (by decide) (by decide)⟩

/-- C9: whenever any of the four exchange handlers rejects with the
invalid-grant outcome, the credential store is unchanged: nothing was created
or deleted. -/
theorem reject_no_store_mutation (s : Store) (client : Client)
    (code redirectUri username password rtValue : String) (scope : List String)
    (fresh : FreshTokens) :
    ((exchangeCode s client code redirectUri fresh).1 = .invalidGrant →
      (exchangeCode s client code redirectUri fresh).2 = s) ∧
    ((exchangePassword s client username password scope fresh).1 = .invalidGrant →
      (exchangePassword s client username password scope fresh).2 = s) ∧
    ((exchangeClientCredentials s client scope fresh).1 = .invalidGrant →
      (exchangeClientCredentials s client scope fresh).2 = s) ∧
    ((exchangeRefreshToken s client rtValue scope fresh).1 = .invalidGrant →
      (exchangeRefreshToken s client rtValue scope fresh).2 = s) := by
  refine ⟨?_, ?_, ?_, ?_⟩ <;> intro h
  · rcases exchangeCode_shape s client code redirectUri fresh with hs | hs
    · rw [h] at hs
      cases hs
    · exact hs
  · rcases exchangePassword_shape s client username password scope fresh with hs | hs
    · rw [h] at hs
      cases hs
    · exact hs.2
  · rcases exchangeClientCredentials_shape s client scope fresh with hs | hs
    · rw [h] at hs
      cases hs
    · exact hs
  · rcases exchangeRefreshToken_shape s client rtValue scope fresh with hs | hs
    · rw [h] at hs
      cases hs
    · exact hs

/-- Witness for C9: on the sample store, a wrong code value, a wrong password,
a wrong client secret and a wrong refresh-token value are all rejected with the
store unchanged. -/
theorem reject_no_store_mutation_witness :
    (exchangeCode sampleStore clientA "no-such-code" "https://a.example/cb" fresh1).2 =
      sampleStore ∧
    (exchangePassword sampleStore clientA "alice@example.com" "bad-pw" ["read"] fresh1).2 =
      sampleStore ∧
    (exchangeClientCredentials sampleStore { clientA with secret := "bad" } [] fresh1).2 =
      sampleStore ∧
    (exchangeRefreshToken sampleStore clientA "no-such-rt" [] fresh1).2 = sampleStore :=
  ⟨(reject_no_store_mutation sampleStore clientA "no-such-code" "https://a.example/cb"
      "alice@example.com" "bad-pw" "no-such-rt" ["read"] fresh1).1 (by decide),
   (reject_no_store_mutation sampleStore clientA "x" "y" "alice@example.com" "bad-pw"
      "no-such-rt" ["read"] fresh1).2.1 (by decide),
   (reject_no_store_mutation sampleStore { clientA with secret := "bad" } "x" "y" "u" "p"
      "no-such-rt" [] fresh1).2.2.1 (by decide),
   (reject_no_store_mutation sampleStore clientA "x" "y" "u" "p" "no-such-rt" [] fresh1).2.2.2
     (by decide)⟩

/-- C6: a successful client-credentials exchange returns no refresh token and
never touches the refresh-token collection; the minted access token has
grantType `client_credentials`, the client's entire registered scope list and
no userId; and the handler's result does not depend on the requested scope at
all. -/
theorem cc_success_full_scopes_no_refresh (s : Store) (client : Client)
    (scope : List String) (fresh : FreshTokens) :
    (exchangeClientCredentials s client scope fresh).2.refreshTokens = s.refreshTokens ∧
    (∀ x rt e, (exchangeClientCredentials s client scope fresh).1 = .success x rt e →
      rt = none ∧ x = fresh.atValue ∧
      ∃ clientDoc, s.clients.find? (fun c => c.id == client.id) = some clientDoc ∧
        clientDoc.scopes ≠ [] ∧
        (exchangeClientCredentials s client scope fresh).2.accessTokens =
          { mongoId := fresh.atMongoId, value := fresh.atValue,
            clientId := client.mongoId, userId := none,
            scopes := clientDoc.scopes, grantType := "client_credentials",
            expireAt := fresh.atExpireAt } :: s.accessTokens) ∧
    (∀ scope2 : List String, exchangeClientCredentials s client scope fresh =
      exchangeClientCredentials s client scope2 fresh) := by
  unfold exchangeClientCredentials
  split
  · rename_i clientDoc heq
    refine ⟨?_, ?_, fun scope2 => rfl⟩
    · split
      · rfl
      · split
        · rfl
        · rfl
    · intro x rt e
      split
      · rename_i hcond
        intro hx
        have hlen : clientDoc.scopes ≠ [] :=
          List.length_pos.mp (of_decide_eq_true ((Bool.and_eq_true _ _).mp hcond).1)
        injection hx with h1 h2 h3
        exact ⟨h2.symm, h1.symm, clientDoc, heq, hlen, rfl⟩
      · split
        · intro hx
          cases hx
        · intro hx
          cases hx
  · refine ⟨rfl, ?_, fun scope2 => rfl⟩
    intro x rt e hx
    cases hx

/-- Witness for C6: a successful client-credentials exchange of `clientA`
(requested scope `["other"]`) returns its token with no refresh token and the
properties above hold at that input. -/
theorem cc_success_full_scopes_no_refresh_witness :
    (exchangeClientCredentials sampleStore clientA ["other"] fresh1).1 =
      .success "at-new-1" none 360 ∧
    ((exchangeClientCredentials sampleStore clientA ["other"] fresh1).2.refreshTokens =
        sampleStore.refreshTokens ∧
      (∀ x rt e,
        (exchangeClientCredentials sampleStore clientA ["other"] fresh1).1 = .success x rt e →
        rt = none ∧ x = fresh1.atValue ∧
        ∃ clientDoc,
          sampleStore.clients.find? (fun c => c.id == clientA.id) = some clientDoc ∧
          clientDoc.scopes ≠ [] ∧
          (exchangeClientCredentials sampleStore clientA ["other"] fresh1).2.accessTokens =
            { mongoId := fresh1.atMongoId, value := fresh1.atValue,
              clientId := clientA.mongoId, userId := none,
              scopes := clientDoc.scopes, grantType := "client_credentials",
              expireAt := fresh1.atExpireAt } :: sampleStore.accessTokens) ∧
      (∀ scope2 : List String, exchangeClientCredentials sampleStore clientA ["other"] fresh1 =
        exchangeClientCredentials sampleStore clientA scope2 fresh1)) :=
  ⟨by decide, cc_success_full_scopes_no_refresh sampleStore clientA ["other"] fresh1⟩

/-- C4 counterexample: `client-b` is registered with an empty scope list; a
client-credentials exchange presenting client-b's id with a WRONG secret is a
mismatched-secret validation failure, yet it is answered with the
distinguishable configuration error instead of the uniform invalid-grant
outcome — revealing that the client exists. -/
theorem uniform_invalid_grant_cex :
    (({ clientB with secret := "wrong-secret" } : Client).secret ≠ clientB.secret) ∧
    sampleStore.clients.find?
        (fun c => c.id == ({ clientB with secret := "wrong-secret" } : Client).id) =
      some clientB ∧
    (exchangeClientCredentials sampleStore { clientB with secret := "wrong-secret" }
        [] fresh1).1 ≠ ExchangeOutcome.invalidGrant ∧
    (exchangeClientCredentials sampleStore { clientB with secret := "wrong-secret" }
        [] fresh1).1 =
      .serverError "Client does not support client_credentials due incomplete scopes value" := by
  decide

/-- C4 amended: in the password exchange every validation failure rejects with
the one invalid-grant outcome (the only possible outcomes are success and
invalid-grant); in the client-credentials exchange the same holds except that
a found client document with an empty scope list is answered with the
configuration error — even when the presented secret mismatches. -/
theorem uniform_invalid_grant_rejection (s : Store) (client : Client)
    (username password : String) (scope : List String) (fresh : FreshTokens) :
    (isSuccess (exchangePassword s client username password scope fresh).1 = true ∨
      (exchangePassword s client username password scope fresh).1 = .invalidGrant) ∧
    (isSuccess (exchangeClientCredentials s client scope fresh).1 = true ∨
      (exchangeClientCredentials s client scope fresh).1 = .invalidGrant ∨
      (∃ clientDoc, s.clients.find? (fun c => c.id == client.id) = some clientDoc ∧
        clientDoc.scopes = [] ∧
        (exchangeClientCredentials s client scope fresh).1 =
          .serverError "Client does not support client_credentials due incomplete scopes value")) := by
  constructor
  · rcases exchangePassword_shape s client username password scope fresh with hs | hs
    · exact Or.inl hs
    · exact Or.inr hs.1
  · unfold exchangeClientCredentials
    split
    · rename_i clientDoc heq
      split
      · exact Or.inl rfl
      · split
        · rename_i hzero
          have hempty : clientDoc.scopes = [] :=
            List.length_eq_zero.mp (by simpa using hzero)
          exact Or.inr (Or.inr ⟨clientDoc, heq, hempty, rfl⟩)
        · exact Or.inr (Or.inl rfl)
    · exact Or.inr (Or.inl rfl)

/-- C8 counterexample: with two stored tokens for the `(clientA, userU)` pair
— `tokenAT` (scopes `read`) first and `tokenAT2` (scopes `write`) second —
requesting scope `["write"]` is NOT auto-approved although the user holds an
access token for this client with exactly the requested scopes. -/
theorem immediate_approval_cex :
    immediateApproval storeTwoTokens clientA userU ["write"] = false ∧
    storeTwoTokens.accessTokens.any
        (fun tok => tok.clientId == clientA.mongoId && tok.userId == some userU.mongoId &&
          isScopeEquals tok.scopes ["write"]) = true := by
  decide

/-- C8 amended: the decision flow auto-approves iff the FIRST stored access
token for the (client, user) pair — the one `findOne` returns — has scopes
set-equal to the requested scope; auto-approval still implies that the user
holds such a token, but holding one does not suffice when an earlier stored
token of the pair has different scopes. -/
theorem immediate_approval_first_token (s : Store) (client : Client) (user : User)
    (scope : List String) :
    (immediateApproval s client user scope = true ↔
      ∃ tok, s.accessTokens.find?
          (fun t => t.clientId == client.mongoId && t.userId == some user.mongoId) =
            some tok ∧
        isScopeEquals tok.scopes scope = true) ∧
    (immediateApproval s client user scope = true →
      ∃ tok ∈ s.accessTokens, tok.clientId = client.mongoId ∧
        tok.userId = some user.mongoId ∧ isScopeEquals tok.scopes scope = true) := by
  have hmain : immediateApproval s client user scope = true ↔
      ∃ tok, s.accessTokens.find?
          (fun t => t.clientId == client.mongoId && t.userId == some user.mongoId) =
            some tok ∧ isScopeEquals tok.scopes scope = true := by
    unfold immediateApproval
    rcases hfind : s.accessTokens.find?
        (fun t => t.clientId == client.mongoId && t.userId == some user.mongoId) with _ | tok
    · rw [hfind]
      simp
    · rw [hfind]
      constructor
      · intro h
        exact ⟨tok, rfl, h⟩
      · rintro ⟨tok2, htok2, hsc⟩
        cases htok2
        exact hsc
  refine ⟨hmain, ?_⟩
  intro h
  rcases hmain.mp h with ⟨tok, hfind, hsc⟩
  have hmem := List.mem_of_find?_eq_some hfind
  have hprop := List.find?_some hfind
  rw [Bool.and_eq_true] at hprop
  refine ⟨tok, hmem, ?_, ?_, hsc⟩
  · simpa using hprop.1
  · simpa using hprop.2

/-- Witness for C8 amended: instantiated on the sample store, where the single
token for the pair has scopes `["read"]` and requesting `["read"]`
auto-approves. -/
theorem immediate_approval_first_token_witness :
    immediateApproval sampleStore clientA userU ["read"] = true ∧
    (∃ tok ∈ sampleStore.accessTokens, tok.clientId = clientA.mongoId ∧
      tok.userId = some userU.mongoId ∧ isScopeEquals tok.scopes ["read"] = true) :=
  ⟨by decide,
    (immediate_approval_first_token sampleStore clientA userU ["read"]).2 (by decide)⟩

/-- C7: under a well-formed store (unique token values, unique client ids,
client references resolving, no empty token value), introspection answers an
active response iff a token with the presented value is stored and its
resolved client is the authenticated requester; in every other case — no token
supplied, token not found (which is how a TTL-expired token manifests, the
store having dropped it), or client mismatch — it answers exactly
`{active: false}`. -/
theorem introspection_active_iff (s : Store) (requester : Client) (token : Option String)
    (hvals : ∀ a ∈ s.accessTokens, ∀ b ∈ s.accessTokens, a.value = b.value → a = b)
    (hclients : ∀ a ∈ s.clients, ∀ b ∈ s.clients, a.mongoId = b.mongoId → a = b)
    (hwf : ∀ tok ∈ s.accessTokens, ∃ c ∈ s.clients, c.mongoId = tok.clientId)
    (hne : ∀ tok ∈ s.accessTokens, tok.value ≠ "") :
    ((∃ cid sc e u, tokenIntrospection s requester token = .active cid sc e u) ↔
      (∃ t, token = some t ∧ ∃ tok ∈ s.accessTokens, tok.value = t ∧
        ∃ c ∈ s.clients, c.mongoId = tok.clientId ∧ c.id = requester.id)) ∧
    (¬ (∃ t, token = some t ∧ ∃ tok ∈ s.accessTokens, tok.value = t ∧
        ∃ c ∈ s.clients, c.mongoId = tok.clientId ∧ c.id = requester.id) →
      tokenIntrospection s requester token = .inactive) := by
  cases token with
  | none =>
    refine ⟨⟨?_, ?_⟩, fun _ => rfl⟩
    · rintro ⟨cid, sc, e, u, h⟩
      cases h
    · rintro ⟨t, ht, _⟩
      cases ht
  | some t =>
    simp only [tokenIntrospection]
    split
    · rename_i hempty
      have ht : t = "" := by simpa using hempty
      refine ⟨⟨?_, ?_⟩, fun _ => rfl⟩
      · rintro ⟨cid, sc, e, u, h⟩
        cases h
      · rintro ⟨t2, ht2, tok, hmem, hval, _⟩
        cases ht2
        exact absurd (hval.trans ht) (hne tok hmem)
    · split
      · rename_i heqf
        rw [List.find?_eq_none] at heqf
        refine ⟨⟨?_, ?_⟩, fun _ => rfl⟩
        · rintro ⟨cid, sc, e, u, h⟩
          cases h
        · rintro ⟨t2, ht2, tok, hmem, hval, _⟩
          cases ht2
          exact absurd hval (by simpa using heqf tok hmem)
      · rename_i tok0 heqf
        have hmem0 := List.mem_of_find?_eq_some heqf
        have hval0 : tok0.value = t := by simpa using List.find?_some heqf
        split
        · rename_i heqc
          unfold findClientByMongoId at heqc
          rw [List.find?_eq_none] at heqc
          obtain ⟨c, hcmem, hcm⟩ := hwf tok0 hmem0
          exact absurd hcm (by simpa using heqc c hcmem)
        · rename_i c0 heqc
          unfold findClientByMongoId at heqc
          have hc0mem := List.mem_of_find?_eq_some heqc
          have hc0m : c0.mongoId = tok0.clientId := by simpa using List.find?_some heqc
          split
          · rename_i hid
            have hid0 : c0.id = requester.id := by simpa using hid
            have hrhs : ∃ t2, (some t : Option String) = some t2 ∧
                ∃ tok ∈ s.accessTokens, tok.value = t2 ∧
                  ∃ c ∈ s.clients, c.mongoId = tok.clientId ∧ c.id = requester.id :=
              ⟨t, rfl, tok0, hmem0, hval0, c0, hc0mem, hc0m, hid0⟩
            refine ⟨⟨fun _ => hrhs, fun _ => ⟨_, _, _, _, rfl⟩⟩, fun hn => absurd hrhs hn⟩
          · rename_i hid
            refine ⟨⟨?_, ?_⟩, fun _ => rfl⟩
            · rintro ⟨cid, sc, e, u, h⟩
              cases h
            · rintro ⟨t2, ht2, tok, hmem, hval, c, hcmem, hcm, hcid⟩
              cases ht2
              have htok : tok = tok0 := hvals tok hmem tok0 hmem0 (hval.trans hval0.symm)
              have hcm2 : c.mongoId = c0.mongoId := by
                rw [hcm, htok, ← hc0m]
              have hceq : c = c0 := hclients c hcmem c0 hc0mem hcm2
              have : c0.id = requester.id := by
                rw [← hceq]
                exact hcid
              simp [this] at hid

/-- Witness for C7: instantiated on the sample store, where introspecting the
stored token value as `clientA` is active, and as `clientB` (client mismatch)
falls in the negative case. -/
theorem introspection_active_iff_witness :
    (∃ cid sc e u, tokenIntrospection sampleStore clientA (some "at-1") =
      .active cid sc e u) ∧
    tokenIntrospection sampleStore clientB (some "at-1") = .inactive :=
  ⟨(introspection_active_iff sampleStore clientA (some "at-1") (by decide) (by decide)
      (by decide) (by decide)).1.mpr
      ⟨"at-1", rfl, tokenAT, by decide, by decide, clientA, by decide, by decide, by decide⟩,
   (introspection_active_iff sampleStore clientB (some "at-1") (by decide) (by decide)
      (by decide) (by decide)).2 (by decide)⟩

/-- C1: under a well-formed store (unique code values, unique client `_id`s,
code client references resolving), the authorization-code exchange succeeds
iff a stored AuthorizationCode has the presented value, its client reference
resolves to a client whose id equals the requesting client's id, and the
supplied redirectUri equals the stored one; on any mismatch or not-found the
outcome is the uniform invalid-grant result with the store unchanged; and on
success the code is deleted and a fresh access token (grantType `code`,
carrying the code's clientId/userId/scopes) plus a paired refresh token are
stored and returned. -/
theorem code_exchange_iff (s : Store) (client : Client) (code redirectUri : String)
    (fresh : FreshTokens)
    (hvals : ∀ a ∈ s.authCodes, ∀ b ∈ s.authCodes, a.value = b.value → a = b)
    (hclients : ∀ a ∈ s.clients, ∀ b ∈ s.clients, a.mongoId = b.mongoId → a = b)
    (hwf : ∀ ac ∈ s.authCodes, ∃ c ∈ s.clients, c.mongoId = ac.clientId) :
    (isSuccess (exchangeCode s client code redirectUri fresh).1 = true ↔
      ∃ ac ∈ s.authCodes, ac.value = code ∧
        (∃ pc ∈ s.clients, pc.mongoId = ac.clientId ∧ pc.id = client.id) ∧
        ac.redirectUri = redirectUri) ∧
    (isSuccess (exchangeCode s client code redirectUri fresh).1 = false →
      (exchangeCode s client code redirectUri fresh).1 = .invalidGrant ∧
      (exchangeCode s client code redirectUri fresh).2 = s) ∧
    (∀ ac ∈ s.authCodes, ac.value = code →
      isSuccess (exchangeCode s client code redirectUri fresh).1 = true →
      exchangeCode s client code redirectUri fresh =
        (.success fresh.atValue (some fresh.rtValue) fresh.atExpireAt,
          { s with
            authCodes := s.authCodes.eraseP (fun a => a.value == code),
            accessTokens :=
              { mongoId := fresh.atMongoId, value := fresh.atValue,
                clientId := ac.clientId, userId := some ac.userId,
                scopes := ac.scopes, grantType := "code",
                expireAt := fresh.atExpireAt } :: s.accessTokens,
            refreshTokens :=
              { value := fresh.rtValue, accessTokenId := fresh.atMongoId } ::
                s.refreshTokens })) := by
  unfold exchangeCode
  split
  · rename_i heqf
    rw [List.find?_eq_none] at heqf
    refine ⟨⟨?_, ?_⟩, fun _ => ⟨rfl, rfl⟩, ?_⟩
    · intro h
      cases h
    · rintro ⟨ac, hmem, hval, _⟩
      exact absurd hval (by simpa using heqf ac hmem)
    · intro ac hmem hval h
      exact absurd hval (by simpa using heqf ac hmem)
  · rename_i ac0 heqf
    have hmem0 := List.mem_of_find?_eq_some heqf
    have hval0 : ac0.value = code := by simpa using List.find?_some heqf
    split
    · rename_i heqc
      unfold findClientByMongoId at heqc
      rw [List.find?_eq_none] at heqc
      obtain ⟨c, hcmem, hcm⟩ := hwf ac0 hmem0
      exact absurd hcm (by simpa using heqc c hcmem)
    · rename_i pc0 heqc
      unfold findClientByMongoId at heqc
      have hpc0mem := List.mem_of_find?_eq_some heqc
      have hpc0m : pc0.mongoId = ac0.clientId := by simpa using List.find?_some heqc
      split
      · rename_i hcond
        rw [Bool.and_eq_true] at hcond
        have hid : client.id = pc0.id := by simpa using hcond.1
        have hred : redirectUri = ac0.redirectUri := by simpa using hcond.2
        refine ⟨⟨fun _ => ?_, fun _ => rfl⟩, ?_, ?_⟩
        · exact ⟨ac0, hmem0, hval0, ⟨pc0, hpc0mem, hpc0m, hid.symm⟩, hred.symm⟩
        · intro h
          cases h
        · intro ac hmem hval _
          have hac : ac = ac0 := hvals ac hmem ac0 hmem0 (hval.trans hval0.symm)
          subst hac
          rfl
      · rename_i hcond
        refine ⟨⟨?_, ?_⟩, fun _ => ⟨rfl, rfl⟩, ?_⟩
        · intro h
          cases h
        · rintro ⟨ac, hmem, hval, ⟨pc, hpcmem, hpcm, hpcid⟩, hredir⟩
          have hac : ac = ac0 := hvals ac hmem ac0 hmem0 (hval.trans hval0.symm)
          subst hac
          have hpc : pc = pc0 := hclients pc hpcmem pc0 hpc0mem (hpcm.trans hpc0m.symm)
          subst hpc
          refine absurd ?_ hcond
          rw [Bool.and_eq_true]
          exact ⟨by simpa using hpcid.symm, by simpa using hredir.symm⟩
        · intro ac hmem hval h
          cases h

/-- Witness for C1: instantiated on the sample store, exchanging `code-1` as
`clientA` with the registered redirect URI. -/
theorem code_exchange_iff_witness :
    ((isSuccess
        (exchangeCode sampleStore clientA "code-1" "https://a.example/cb" fresh1).1 = true ↔
      ∃ ac ∈ sampleStore.authCodes, ac.value = "code-1" ∧
        (∃ pc ∈ sampleStore.clients, pc.mongoId = ac.clientId ∧ pc.id = clientA.id) ∧
        ac.redirectUri = "https://a.example/cb") ∧
    (isSuccess
        (exchangeCode sampleStore clientA "code-1" "https://a.example/cb" fresh1).1 = false →
      (exchangeCode sampleStore clientA "code-1" "https://a.example/cb" fresh1).1 =
        .invalidGrant ∧
      (exchangeCode sampleStore clientA "code-1" "https://a.example/cb" fresh1).2 =
        sampleStore) ∧
    (∀ ac ∈ sampleStore.authCodes, ac.value = "code-1" →
      isSuccess
        (exchangeCode sampleStore clientA "code-1" "https://a.example/cb" fresh1).1 = true →
      exchangeCode sampleStore clientA "code-1" "https://a.example/cb" fresh1 =
        (.success fresh1.atValue (some fresh1.rtValue) fresh1.atExpireAt,
          { sampleStore with
            authCodes := sampleStore.authCodes.eraseP (fun a => a.value == "code-1"),
            accessTokens :=
              { mongoId := fresh1.atMongoId, value := fresh1.atValue,
                clientId := ac.clientId, userId := some ac.userId,
                scopes := ac.scopes, grantType := "code",
                expireAt := fresh1.atExpireAt } :: sampleStore.accessTokens,
            refreshTokens :=
              { value := fresh1.rtValue, accessTokenId := fresh1.atMongoId } ::
                sampleStore.refreshTokens }))) :=
  code_exchange_iff sampleStore clientA "code-1" "https://a.example/cb" fresh1
    (by decide) (by decide) (by decide)

/-- C3: under a well-formed store (unique refresh-token values, unique access
token `_id`s, unique client `_id`s, references resolving), the refresh-token
exchange succeeds iff a refresh token with the presented value is stored and
its populated access token's client is the requesting client; on success it
mints a new access token carrying forward the old token's
clientId/userId/scopes/grantType, deletes the old access token and the old
refresh token, and stores a new refresh token paired to the new access token;
on mismatch or not-found it rejects with invalid-grant, store unchanged. -/
theorem refresh_exchange_rotation (s : Store) (client : Client)
    (rtValue : String) (scope : List String) (fresh : FreshTokens)
    (hrts : ∀ a ∈ s.refreshTokens, ∀ b ∈ s.refreshTokens, a.value = b.value → a = b)
    (hats : ∀ a ∈ s.accessTokens, ∀ b ∈ s.accessTokens, a.mongoId = b.mongoId → a = b)
    (hclients : ∀ a ∈ s.clients, ∀ b ∈ s.clients, a.mongoId = b.mongoId → a = b)
    (hwfa : ∀ rt ∈ s.refreshTokens, ∃ tok ∈ s.accessTokens, tok.mongoId = rt.accessTokenId)
    (hwfc : ∀ tok ∈ s.accessTokens, ∃ c ∈ s.clients, c.mongoId = tok.clientId) :
    (isSuccess (exchangeRefreshToken s client rtValue scope fresh).1 = true ↔
      ∃ rt ∈ s.refreshTokens, rt.value = rtValue ∧
        ∃ tok ∈ s.accessTokens, tok.mongoId = rt.accessTokenId ∧
          ∃ c ∈ s.clients, c.mongoId = tok.clientId ∧ c.id = client.id) ∧
    (isSuccess (exchangeRefreshToken s client rtValue scope fresh).1 = false →
      (exchangeRefreshToken s client rtValue scope fresh).1 = .invalidGrant ∧
      (exchangeRefreshToken s client rtValue scope fresh).2 = s) ∧
    (∀ rt ∈ s.refreshTokens, rt.value = rtValue →
      ∀ tok ∈ s.accessTokens, tok.mongoId = rt.accessTokenId →
      isSuccess (exchangeRefreshToken s client rtValue scope fresh).1 = true →
      exchangeRefreshToken s client rtValue scope fresh =
        (.success fresh.atValue (some fresh.rtValue) fresh.atExpireAt,
          { s with
            accessTokens :=
              { mongoId := fresh.atMongoId, value := fresh.atValue,
                clientId := tok.clientId, userId := tok.userId,
                scopes := tok.scopes, grantType := tok.grantType,
                expireAt := fresh.atExpireAt } ::
                s.accessTokens.eraseP (fun a => a.mongoId == rt.accessTokenId),
            refreshTokens :=
              { value := fresh.rtValue, accessTokenId := fresh.atMongoId } ::
                s.refreshTokens.eraseP (fun r => r.value == rtValue) })) := by
  unfold exchangeRefreshToken
  split
  · rename_i heqr
    rw [List.find?_eq_none] at heqr
    refine ⟨⟨?_, ?_⟩, fun _ => ⟨rfl, rfl⟩, ?_⟩
    · intro h
      cases h
    · rintro ⟨rt, hmem, hval, _⟩
      exact absurd hval (by simpa using heqr rt hmem)
    · intro rt hmem hval tok htmem htm h
      exact absurd hval (by simpa using heqr rt hmem)
  · rename_i rt0 heqr
    have hrmem0 := List.mem_of_find?_eq_some heqr
    have hrval0 : rt0.value = rtValue := by simpa using List.find?_some heqr
    split
    · rename_i heqt
      rw [List.find?_eq_none] at heqt
      obtain ⟨tok, htmem, htm⟩ := hwfa rt0 hrmem0
      exact absurd htm (by simpa using heqt tok htmem)
    · rename_i tok0 heqt
      have htmem0 := List.mem_of_find?_eq_some heqt
      have htm0 : tok0.mongoId = rt0.accessTokenId := by simpa using List.find?_some heqt
      split
      · rename_i heqc
        unfold findClientByMongoId at heqc
        rw [List.find?_eq_none] at heqc
        obtain ⟨c, hcmem, hcm⟩ := hwfc tok0 htmem0
        exact absurd hcm (by simpa using heqc c hcmem)
      · rename_i c0 heqc
        unfold findClientByMongoId at heqc
        have hcmem0 := List.mem_of_find?_eq_some heqc
        have hcm0 : c0.mongoId = tok0.clientId := by simpa using List.find?_some heqc
        split
        · rename_i hid
          have hid0 : c0.id = client.id := by simpa using hid
          refine ⟨⟨fun _ => ?_, fun _ => rfl⟩, ?_, ?_⟩
          · exact ⟨rt0, hrmem0, hrval0, tok0, htmem0, htm0, c0, hcmem0, hcm0, hid0⟩
          · intro h
            cases h
          · intro rt hmem hval tok htmem htm _
            have hrt : rt = rt0 := hrts rt hmem rt0 hrmem0 (hval.trans hrval0.symm)
            subst hrt
            have htok : tok = tok0 := hats tok htmem tok0 htmem0 (htm.trans htm0.symm)
            subst htok
            rfl
        · rename_i hid
          refine ⟨⟨?_, ?_⟩, fun _ => ⟨rfl, rfl⟩, ?_⟩
          · intro h
            cases h
          · rintro ⟨rt, hmem, hval, tok, htmem, htm, c, hcmem, hcm, hcid⟩
            have hrt : rt = rt0 := hrts rt hmem rt0 hrmem0 (hval.trans hrval0.symm)
            subst hrt
            have htok : tok = tok0 := hats tok htmem tok0 htmem0 (htm.trans htm0.symm)
            subst htok
            have hc : c = c0 := hclients c hcmem c0 hcmem0 (hcm.trans hcm0.symm)
            subst hc
            refine absurd ?_ hid
            simpa using hcid
          · intro rt hmem hval tok htmem htm h
            cases h

/-- Witness for C3: instantiated on the sample store, rotating `rt-1` as
`clientA`. -/
theorem refresh_exchange_rotation_witness :
    ((isSuccess (exchangeRefreshToken sampleStore clientA "rt-1" [] fresh1).1 = true ↔
      ∃ rt ∈ sampleStore.refreshTokens, rt.value = "rt-1" ∧
        ∃ tok ∈ sampleStore.accessTokens, tok.mongoId = rt.accessTokenId ∧
          ∃ c ∈ sampleStore.clients, c.mongoId = tok.clientId ∧ c.id = clientA.id) ∧
    (isSuccess (exchangeRefreshToken sampleStore clientA "rt-1" [] fresh1).1 = false →
      (exchangeRefreshToken sampleStore clientA "rt-1" [] fresh1).1 = .invalidGrant ∧
      (exchangeRefreshToken sampleStore clientA "rt-1" [] fresh1).2 = sampleStore) ∧
    (∀ rt ∈ sampleStore.refreshTokens, rt.value = "rt-1" →
      ∀ tok ∈ sampleStore.accessTokens, tok.mongoId = rt.accessTokenId →
      isSuccess (exchangeRefreshToken sampleStore clientA "rt-1" [] fresh1).1 = true →
      exchangeRefreshToken sampleStore clientA "rt-1" [] fresh1 =
        (.success fresh1.atValue (some fresh1.rtValue) fresh1.atExpireAt,
          { sampleStore with
            accessTokens :=
              { mongoId := fresh1.atMongoId, value := fresh1.atValue,
                clientId := tok.clientId, userId := tok.userId,
                scopes := tok.scopes, grantType := tok.grantType,
                expireAt := fresh1.atExpireAt } ::
                sampleStore.accessTokens.eraseP (fun a => a.mongoId == rt.accessTokenId),
            refreshTokens :=
              { value := fresh1.rtValue, accessTokenId := fresh1.atMongoId } ::
                sampleStore.refreshTokens.eraseP (fun r => r.value == "rt-1") }))) :=
  refresh_exchange_rotation sampleStore clientA "rt-1" [] fresh1
    (by decide) (by decide) (by decide) (by decide) (by decide)

/-- C2: the claim says at most one exchange succeeds per single-use credential
value because the delete is conditioned on the credential still existing. In
the handler, however, `findOne` and the unconditional `document.remove()` are
separate awaited steps; interleaving two concurrent exchanges of the one
stored `code-1` (both find the code before either removes it) finishes BOTH
with success, minting two token pairs from a single single-use code. -/
theorem code_exchange_double_spend :
    sampleStore.authCodes.countP (fun ac => ac.value == "code-1") = 1 ∧
    poolOutcomes (runSchedule sampleStore
        [(raceRequestA, .start), (raceRequestB, .start)]
        [0, 1, 0, 1, 0, 1, 0, 1]).2 =
      [.success "at-new-1" (some "rt-new-1") 360,
       .success "at-new-2" (some "rt-new-2") 360] ∧
    (poolOutcomes (runSchedule sampleStore
        [(raceRequestA, .start), (raceRequestB, .start)]
        [0, 1, 0, 1, 0, 1, 0, 1]).2).countP isSuccess = 2 := by
  decide

end AuthServer
